import Mathlib

/-!
Verification of the assessment-scoring and dashboard core of `app_finale.py`.

The relational store is modelled as lists of rows; SQL `SELECT ... WHERE`
with `fetchone()` becomes `List.find?` (first matching row in table order),
inserts become appends, and the commit/rollback discipline of the save
operation becomes a function returning the success flag together with the
resulting store (the input store unchanged on rollback).
-/

/-- Row of the `assessment_types` table. -/
structure AssessmentType where
  assessment_type_id : Nat
  code : String
  title : String
deriving DecidableEq, Repr

/-- Row of the `assessment_questions` table. -/
structure AssessmentQuestion where
  question_id : Nat
  assessment_type_id : Nat
  question_order : Nat
  question_text : String
deriving DecidableEq, Repr

/-- Row of the `response_options` table. -/
structure ResponseOption where
  option_id : Nat
  assessment_type_id : Nat
  option_text : String
  option_value : Int
deriving DecidableEq, Repr

/-- Row of the `severity_levels` table. -/
structure SeverityLevel where
  severity_id : Nat
  assessment_type_id : Nat
  min_score : Int
  max_score : Int
  severity_label : String
deriving DecidableEq, Repr

/-- Row of the `assessment_responses` table. -/
structure AssessmentResponseRow where
  response_id : Nat
  user_id : Nat
  assessment_type_id : Nat
  total_score : Int
  severity_id : Nat
  created_at : Nat
deriving DecidableEq, Repr

/-- Row of the `response_details` table. -/
structure ResponseDetailRow where
  response_id : Nat
  question_id : Nat
  selected_option_id : Nat
  response_value : Int
deriving DecidableEq, Repr

/-- Row of the `users` table (the columns the dashboard core reads). -/
structure UserRow where
  user_id : Nat
  is_admin : Bool
  hide_scores : Bool
deriving DecidableEq, Repr

/-- The relational store: one list per table, plus the next serial value of
`assessment_responses.response_id`. -/
structure Store where
  users : List UserRow
  assessment_types : List AssessmentType
  assessment_questions : List AssessmentQuestion
  response_options : List ResponseOption
  severity_levels : List SeverityLevel
  assessment_responses : List AssessmentResponseRow
  response_details : List ResponseDetailRow
  nextResponseId : Nat
deriving DecidableEq, Repr

/-- A submitted answer as passed to the save operation: a
`(question_id, selected_option_id, value)` triple. -/
abbrev Answer := Nat × Nat × Int

/-- `SELECT code FROM assessment_types WHERE assessment_type_id = %s` followed
by `fetchone()[0]`. -/
def lookupTypeCode (st : Store) (tid : Nat) : Option String :=
  (st.assessment_types.find? (fun ty => ty.assessment_type_id == tid)).map (·.code)

/-- `SELECT question_order FROM assessment_questions WHERE question_id = %s`
followed by `fetchone()[0]`. -/
def lookupQuestionOrder (st : Store) (qid : Nat) : Option Nat :=
  (st.assessment_questions.find? (fun q => q.question_id == qid)).map (·.question_order)

/-- The loop of `save_assessment_response` over the submitted answers for the
`RELATIONSHIP` assessment: look up each answer question order and replace the
value `v` by `6 - v` when the order is 4 or 7 (the hard-coded
`reverse_scored_questions` list); `none` models the exception raised when a
question id has no row. -/
def adjustResponses (st : Store) : List Answer → Option (List Answer)
  | [] => some []
  | (q, o, v) :: rest =>
    match lookupQuestionOrder st q with
    | none => none
    | some ord =>
      match adjustResponses st rest with
      | none => none
      | some rest' =>
        if ord = 4 ∨ ord = 7 then some ((q, o, 6 - v) :: rest')
        else some ((q, o, v) :: rest')

/-- `sum(r[2] for r in responses)`. -/
def sumValues (rs : List Answer) : Int :=
  (rs.map (fun r => r.2.2)).sum

/-- `SELECT severity_id FROM severity_levels WHERE assessment_type_id = %s AND
%s BETWEEN min_score AND max_score` followed by `fetchone()`: the first row in
table order whose inclusive range contains the total. -/
def findSeverity (st : Store) (tid : Nat) (total : Int) : Option SeverityLevel :=
  st.severity_levels.find?
    (fun s => s.assessment_type_id == tid
      && decide (s.min_score ≤ total) && decide (total ≤ s.max_score))

/-- The two INSERT statements of `save_assessment_response`: the
`assessment_responses` header row (with the serial `response_id`) and one
`response_details` row per answer. -/
def insertResponseRows (st : Store) (now uid tid : Nat) (rs : List Answer)
    (total : Int) (sevId : Nat) : Store :=
  { st with
    assessment_responses := st.assessment_responses ++
      [⟨st.nextResponseId, uid, tid, total, sevId, now⟩],
    response_details := st.response_details ++
      rs.map (fun r => ⟨st.nextResponseId, r.1, r.2.1, r.2.2⟩),
    nextResponseId := st.nextResponseId + 1 }

/-- Tail of `save_assessment_response` after the scoring branch: severity
lookup (a missing band raises, causing rollback) then the inserts and commit. -/
def finishSave (st : Store) (now uid tid : Nat) (rs : List Answer)
    (total : Int) : Bool × Store :=
  match findSeverity st tid total with
  | none => (false, st)
  | some sev => (true, insertResponseRows st now uid tid rs total sev.severity_id)

/-- `save_assessment_response(user_id, assessment_type_id, responses,
total_score)`: resolve the type code; for `RELATIONSHIP` reverse-score the
answers at ordinal positions 4 and 7 and recompute the total; look up the
severity band; insert header and detail rows. Any failure rolls the
transaction back, returning `false` with the store unchanged. -/
def save_assessment_response (st : Store) (now uid tid : Nat)
    (responses : List Answer) (total_score : Int) : Bool × Store :=
  match lookupTypeCode st tid with
  | none => (false, st)
  | some code =>
    if code = "RELATIONSHIP" then
      match adjustResponses st responses with
      | none => (false, st)
      | some adjusted => finishSave st now uid tid adjusted (sumValues adjusted)
    else
      finishSave st now uid tid responses total_score

/-- The total the save operation classifies against: for `RELATIONSHIP` the
recomputed sum of the adjusted values, otherwise the caller-supplied
`total_score`; `none` when the type-code or a question-order lookup fails. -/
def computedTotal (st : Store) (tid : Nat) (rs : List Answer) (t : Int) : Option Int :=
  (lookupTypeCode st tid).bind (fun code =>
    if code = "RELATIONSHIP" then (adjustResponses st rs).map sumValues
    else some t)

/-- First `assessment_types` row with the given id (join target). -/
def findType (st : Store) (tid : Nat) : Option AssessmentType :=
  st.assessment_types.find? (fun ty => ty.assessment_type_id == tid)

/-- First `assessment_questions` row with the given id (join target). -/
def findQuestion (st : Store) (qid : Nat) : Option AssessmentQuestion :=
  st.assessment_questions.find? (fun q => q.question_id == qid)

/-- First `response_options` row with the given id (join target). -/
def findOption (st : Store) (oid : Nat) : Option ResponseOption :=
  st.response_options.find? (fun o => o.option_id == oid)

/-- First `severity_levels` row with the given id (join target). -/
def findSeverityById (st : Store) (sid : Nat) : Option SeverityLevel :=
  st.severity_levels.find? (fun s => s.severity_id == sid)

/-- The `json_agg` of the history query: for one response, the
`(question_text, option_text, response_value)` triples of its detail rows that
join to an existing question and option (inner joins drop the rest). -/
def detailTriples (st : Store) (rid : Nat) : List (String × String × Int) :=
  (st.response_details.filter (fun d => d.response_id == rid)).filterMap
    (fun d =>
      match findQuestion st d.question_id, findOption st d.selected_option_id with
      | some q, some o => some (q.question_text, o.option_text, d.response_value)
      | _, _ => none)

/-- One row of the history query result, the view model handed to the
dashboard: it always carries `total_score` and `severity_label`. -/
structure HistoryEntry where
  response_id : Nat
  assessment_type : String
  assessment_title : String
  total_score : Int
  severity_label : String
  created_at : Nat
  response_details : List (String × String × Int)
deriving DecidableEq, Repr

/-- Build the grouped history row for one `assessment_responses` row: the
inner joins require the assessment type, the severity row and at least one
joinable detail row, else the response contributes no row. -/
def mkHistoryEntry (st : Store) (r : AssessmentResponseRow) : Option HistoryEntry :=
  match findType st r.assessment_type_id, findSeverityById st r.severity_id with
  | some ty, some sev =>
    let ds := detailTriples st r.response_id
    if ds.isEmpty then none
    else some ⟨r.response_id, ty.code, ty.title, r.total_score,
               sev.severity_label, r.created_at, ds⟩
  | _, _ => none

/-- `ORDER BY ar.created_at DESC`: most recent first. -/
def histRel (a b : HistoryEntry) : Prop := b.created_at ≤ a.created_at

instance : DecidableRel histRel := fun a b => Nat.decLe b.created_at a.created_at

instance : IsTotal HistoryEntry histRel :=
  ⟨fun a b => (Nat.le_total b.created_at a.created_at).imp id id⟩

instance : IsTrans HistoryEntry histRel :=
  ⟨fun _ _ _ h h' => Nat.le_trans h' h⟩

/-- `get_user_assessment_history(user_id)`: the grouped, joined rows of the
user, ordered by creation time, most recent first. -/
def get_user_assessment_history (st : Store) (uid : Nat) : List HistoryEntry :=
  List.insertionSort histRel
    ((st.assessment_responses.filter (fun r => r.user_id == uid)).filterMap
      (mkHistoryEntry st))

/-- `get_user_settings(user_id)`: the `(is_admin, hide_scores)` pair of the
users row. -/
def get_user_settings (st : Store) (uid : Nat) : Option (Bool × Bool) :=
  (st.users.find? (fun u => u.user_id == uid)).map (fun u => (u.is_admin, u.hide_scores))

/-- Streamlit session state: every key may be absent (`getattr` defaults are
applied at the use sites, as in the source). -/
structure Session where
  current_user : Option Nat
  is_admin : Option Bool
  is_admin_view : Option Bool
  active_section : Option String
  selected_response : Option HistoryEntry
deriving DecidableEq, Repr

/-- The session after every key has been deleted. -/
def emptySession : Session := ⟨none, none, none, none, none⟩

/-- The logout branch of `main`: `del st.session_state[key]` for every key. -/
def logout (s : Session) : Session :=
  { s with current_user := none, is_admin := none, is_admin_view := none,
           active_section := none, selected_response := none }

/-- The radar-chart loop of `render_dashboard`: walk the history, appending
`(assessment_type, total_score)` for each type code not seen yet. -/
def radarLoop (acc : List (String × Int)) : List HistoryEntry → List (String × Int)
  | [] => acc
  | e :: rest =>
    if e.assessment_type ∈ acc.map Prod.fst then radarLoop acc rest
    else radarLoop (acc ++ [(e.assessment_type, e.total_score)]) rest

/-- The `(categories, scores)` series the radar chart is drawn from. -/
def radarSeries (h : List HistoryEntry) : List (String × Int) :=
  radarLoop [] h

/-- Modelled from the spec wording, for comparison with `radarSeries`: a
deduplicated-by-assessment-type series of `(category label, most-recent total
score)` pairs, preserving first-seen order. -/
def specRadarSeries : List HistoryEntry → List (String × Int)
  | [] => []
  | e :: rest =>
    (e.assessment_type, e.total_score) ::
      (specRadarSeries rest).filter (fun p => p.1 != e.assessment_type)

/-- One rendered row of the Assessment History table: the admin view shows
score and severity, the normal view shows completion status only. -/
inductive RowView where
  | adminRow : String → Int → String → Nat → RowView
  | normalRow : String → Nat → RowView
deriving DecidableEq, Repr

/-- The rendered drill-down of a selected response: title, date, score and
severity only in admin view, and the question/answer pairs. -/
structure DetailView where
  title : String
  date : Nat
  scoreInfo : Option (Int × String)
  qa : List (String × String)
deriving DecidableEq, Repr

/-- Everything `render_dashboard` emits that depends on history and role. -/
structure DashboardView where
  radar : Option (List (String × Int))
  rows : List RowView
  detail : Option DetailView
deriving DecidableEq, Repr

/-- One history row as rendered under the current view flag. -/
def renderRow (showScores : Bool) (e : HistoryEntry) : RowView :=
  if showScores then
    .adminRow e.assessment_title e.total_score e.severity_label e.created_at
  else
    .normalRow e.assessment_title e.created_at

/-- The selected-response block: score and severity written only when
`is_admin_view and user_settings[is_admin]`; the loop over the details writes
question and answer text. -/
def renderDetail (showScores : Bool) (e : HistoryEntry) : DetailView :=
  ⟨e.assessment_title, e.created_at,
   if showScores then some (e.total_score, e.severity_label) else none,
   e.response_details.map (fun d => (d.1, d.2.1))⟩

/-- `render_dashboard()`: requires a logged-in user with a users row (else the
page crashes, modelled as `none`); reads `is_admin_view` with `getattr`
default `true`; with no history nothing but the empty page is shown; the
radar is drawn only when the admin view is active and the user is an admin. -/
def render_dashboard (st : Store) (sess : Session) : Option DashboardView :=
  sess.current_user.bind (fun uid =>
    (get_user_settings st uid).map (fun settings =>
      let history := get_user_assessment_history st uid
      let showScores := sess.is_admin_view.getD true && settings.1
      if history.isEmpty then
        ⟨none, [], none⟩
      else
        ⟨if showScores then some (radarSeries history) else none,
         history.map (renderRow showScores),
         sess.selected_response.map (renderDetail showScores)⟩))

/-- What `main` puts on the page for one interaction. -/
inductive Screen where
  | authScreen : Screen
  | appScreen : Bool → Option DashboardView → Screen
deriving DecidableEq, Repr

/-- The routing of `main`: without `current_user` the login/signup page; else
the sidebar (whose admin-view checkbox appears only when the session
`is_admin` flag is set) and the section chosen by the sidebar unless
overridden by `st.session_state.section`; only the Dashboard section is
modelled, the others carry no role-dependent content. -/
def main_route (st : Store) (sess : Session) (chosen : String) : Screen :=
  if sess.current_user.isSome then
    .appScreen (sess.is_admin.getD false)
      (if sess.active_section.getD chosen = "Dashboard" then
        render_dashboard st sess
      else none)
  else .authScreen

/-! ### Characterization of the save operation -/

/-- If the save reports failure, the rollback leaves the store unchanged. -/
theorem save_fst_false_eq (st : Store) (now uid tid : Nat) (rs : List Answer)
    (t : Int) :
    (save_assessment_response st now uid tid rs t).1 = false →
    (save_assessment_response st now uid tid rs t).2 = st := by
  unfold save_assessment_response
  split
  · intro _; rfl
  · split
    · split
      · intro _; rfl
      · unfold finishSave
        split
        · intro _; rfl
        · intro h; simp at h
    · unfold finishSave
      split
      · intro _; rfl
      · intro h; simp at h

/-- A successful save decomposes into the branch taken, the adjusted answers,
the severity band found, and the inserted rows. -/
theorem save_true_cases (st st' : Store) (now uid tid : Nat) (rs : List Answer)
    (t : Int)
    (h : save_assessment_response st now uid tid rs t = (true, st')) :
    ∃ code, lookupTypeCode st tid = some code ∧
      ((code = "RELATIONSHIP" ∧ ∃ adj sev, adjustResponses st rs = some adj ∧
          findSeverity st tid (sumValues adj) = some sev ∧
          st' = insertResponseRows st now uid tid adj (sumValues adj) sev.severity_id) ∨
       (code ≠ "RELATIONSHIP" ∧ ∃ sev, findSeverity st tid t = some sev ∧
          st' = insertResponseRows st now uid tid rs t sev.severity_id)) := by
  unfold save_assessment_response at h
  split at h
  · simp at h
  · rename_i code hcode
    refine ⟨code, hcode, ?_⟩
    split at h
    · rename_i hrel
      split at h
      · simp at h
      · rename_i adj hadj
        unfold finishSave at h
        split at h
        · simp at h
        · rename_i sev hsev
          simp only [Prod.mk.injEq, true_and] at h
          exact Or.inl ⟨hrel, adj, sev, hadj, hsev, h.symm⟩
    · rename_i hrel
      unfold finishSave at h
      split at h
      · simp at h
      · rename_i sev hsev
        simp only [Prod.mk.injEq, true_and] at h
        exact Or.inr ⟨hrel, sev, hsev, h.symm⟩

/-- The converse direction: the inserted rows of a successful save. -/
theorem finishSave_true (st : Store) (now uid tid : Nat) (rs : List Answer)
    (total : Int) (sev : SeverityLevel)
    (hsev : findSeverity st tid total = some sev) :
    finishSave st now uid tid rs total =
      (true, insertResponseRows st now uid tid rs total sev.severity_id) := by
  unfold finishSave
  rw [hsev]

/-- How one answer relates to its adjusted form in the `RELATIONSHIP` branch:
same question and option, value reversed exactly at ordinal positions 4 and 7. -/
def adjustRel (st : Store) (r a : Answer) : Prop :=
  a.1 = r.1 ∧ a.2.1 = r.2.1 ∧
    ∃ ord, lookupQuestionOrder st r.1 = some ord ∧
      a.2.2 = if ord = 4 ∨ ord = 7 then 6 - r.2.2 else r.2.2

/-- The adjustment loop relates input and output answers pointwise by
`adjustRel`. -/
theorem adjust_forall₂ (st : Store) : ∀ (rs adj : List Answer),
    adjustResponses st rs = some adj → List.Forall₂ (adjustRel st) rs adj := by
  intro rs
  induction rs with
  | nil =>
    intro adj h
    unfold adjustResponses at h
    simp only [Option.some.injEq] at h
    subst h
    exact .nil
  | cons r rest ih =>
    intro adj h
    obtain ⟨q, o, v⟩ := r
    unfold adjustResponses at h
    split at h
    · simp at h
    · rename_i ord hord
      split at h
      · simp at h
      · rename_i rest' hrest
        split at h <;>
          [skip; skip] <;>
          · rename_i hif
            simp only [Option.some.injEq] at h
            subst h
            exact List.Forall₂.cons ⟨rfl, rfl, ord, hord, by simp [hif]⟩ (ih rest' hrest)

/-- Each adjusted answer keeps the question and option ids of some submitted
answer. -/
theorem forall₂_mem_right {α β : Type} {R : α → β → Prop} :
    ∀ {l₁ : List α} {l₂ : List β}, List.Forall₂ R l₁ l₂ →
      ∀ b ∈ l₂, ∃ a ∈ l₁, R a b := by
  intro l₁ l₂ h
  induction h with
  | nil => intro b hb; simp at hb
  | cons hr _ ih =>
    intro b hb
    rcases List.mem_cons.mp hb with hb | hb
    · exact ⟨_, List.mem_cons_self _ _, hb ▸ hr⟩
    · obtain ⟨a, ha, hra⟩ := ih b hb
      exact ⟨a, List.mem_cons_of_mem _ ha, hra⟩

/-! ### Concrete stores used by the witnesses -/

/-- A store holding the `RELATIONSHIP` assessment of the spec scenario:
seven questions at ordinal positions 1..7 and one wide severity band. -/
def relStore : Store :=
  { users := [⟨1, false, false⟩]
    assessment_types := [⟨1, "RELATIONSHIP", "Relationship Scale"⟩]
    assessment_questions :=
      [⟨1,1,1,"Q1"⟩,⟨2,1,2,"Q2"⟩,⟨3,1,3,"Q3"⟩,⟨4,1,4,"Q4"⟩,
       ⟨5,1,5,"Q5"⟩,⟨6,1,6,"Q6"⟩,⟨7,1,7,"Q7"⟩]
    response_options :=
      [⟨101,1,"A1",1⟩,⟨102,1,"A2",2⟩,⟨103,1,"A3",3⟩,⟨104,1,"A4",4⟩,
       ⟨105,1,"A5",5⟩,⟨106,1,"A6",3⟩,⟨107,1,"A7",4⟩]
    severity_levels := [⟨1,1,0,100,"Moderate"⟩]
    assessment_responses := []
    response_details := []
    nextResponseId := 1 }

/-- The raw answers of the spec scenario: values `[5,4,3,2,1,3,4]` at ordinal
positions 1..7. -/
def rsRel : List Answer :=
  [(1,105,5),(2,104,4),(3,103,3),(4,102,2),(5,101,1),(6,106,3),(7,107,4)]

/-- The store after the scenario save. -/
def relStoreAfter : Store := (save_assessment_response relStore 9 1 1 rsRel 22).2

/-- A store holding a non-reverse-scored `STRESS` assessment with ten
questions, a `[25,35] -> Severe` band and a second disjoint high band. -/
def stressStore : Store :=
  { users := [⟨1, false, false⟩]
    assessment_types := [⟨1, "STRESS", "Stress Scale"⟩]
    assessment_questions :=
      [⟨1,1,1,"S1"⟩,⟨2,1,2,"S2"⟩,⟨3,1,3,"S3"⟩,⟨4,1,4,"S4"⟩,⟨5,1,5,"S5"⟩,
       ⟨6,1,6,"S6"⟩,⟨7,1,7,"S7"⟩,⟨8,1,8,"S8"⟩,⟨9,1,9,"S9"⟩,⟨10,1,10,"S10"⟩]
    response_options :=
      [⟨201,1,"B1",1⟩,⟨202,1,"B2",2⟩,⟨203,1,"B3",3⟩,⟨204,1,"B4",4⟩,⟨205,1,"B5",5⟩]
    severity_levels := [⟨1,1,25,35,"Severe"⟩,⟨2,1,900,1000,"Extreme"⟩]
    assessment_responses := []
    response_details := []
    nextResponseId := 1 }

/-- Raw answers `[3,4,2,5,1,3,4,2,5,1]` (sum 30) of the non-reverse spec
scenario. -/
def rsStress : List Answer :=
  [(1,203,3),(2,204,4),(3,202,2),(4,205,5),(5,201,1),
   (6,203,3),(7,204,4),(8,202,2),(9,205,5),(10,201,1)]

/-- A store whose only severity band `[0,5]` misses the total 10: the gap
case. -/
def gapStore : Store :=
  { users := []
    assessment_types := [⟨1, "STRESS", "Stress Scale"⟩]
    assessment_questions := [⟨1,1,1,"S1"⟩]
    response_options := [⟨201,1,"B1",1⟩]
    severity_levels := [⟨1,1,0,5,"Low"⟩]
    assessment_responses := []
    response_details := []
    nextResponseId := 1 }

/-- A store with two overlapping severity bands, both containing the total
10: the tie case. -/
def overlapStore : Store :=
  { users := []
    assessment_types := [⟨1, "STRESS", "Stress Scale"⟩]
    assessment_questions := [⟨1,1,1,"S1"⟩]
    response_options := [⟨201,1,"B1",1⟩]
    severity_levels := [⟨1,1,0,15,"Low"⟩,⟨2,1,5,20,"High"⟩]
    assessment_responses := []
    response_details := []
    nextResponseId := 1 }

/-! ### C1: reverse scoring of the RELATIONSHIP assessment -/

/-- C1: for an assessment whose type code is `RELATIONSHIP`, every submitted
answer at ordinal position 4 or 7 with raw value `v` is persisted in its
ResponseDetail row as `6 - v`, answers at all other positions are persisted
unchanged, and the persisted total score is the sum of these adjusted
values. -/
theorem c1_relationship_reverse_scoring
    (st st' : Store) (now uid tid : Nat) (rs : List Answer) (t : Int)
    (hcode : lookupTypeCode st tid = some "RELATIONSHIP")
    (hsave : save_assessment_response st now uid tid rs t = (true, st')) :
    ∃ adj sev, adjustResponses st rs = some adj ∧
      List.Forall₂ (adjustRel st) rs adj ∧
      findSeverity st tid (sumValues adj) = some sev ∧
      st'.assessment_responses = st.assessment_responses ++
        [⟨st.nextResponseId, uid, tid, sumValues adj, sev.severity_id, now⟩] ∧
      st'.response_details = st.response_details ++
        adj.map (fun r => ⟨st.nextResponseId, r.1, r.2.1, r.2.2⟩) := by
  obtain ⟨code, hc, hbranch⟩ := save_true_cases st st' now uid tid rs t hsave
  have hcc : code = "RELATIONSHIP" := by
    rw [hcode] at hc
    exact (Option.some.inj hc).symm
  rcases hbranch with ⟨_, adj, sev, hadj, hsev, hst⟩ | ⟨hnrel, _⟩
  · subst hst
    exact ⟨adj, sev, hadj, adjust_forall₂ st rs adj hadj, hsev,
           by simp [insertResponseRows], by simp [insertResponseRows]⟩
  · exact absurd hcc hnrel

/-- C1 witness: the spec scenario, raw values `[5,4,3,2,1,3,4]` at positions
1..7 give persisted values `[5,4,3,4,1,3,2]` and total score 22. -/
theorem c1_relationship_reverse_scoring_witness :
    (∃ adj sev, adjustResponses relStore rsRel = some adj ∧
      List.Forall₂ (adjustRel relStore) rsRel adj ∧
      findSeverity relStore 1 (sumValues adj) = some sev ∧
      relStoreAfter.assessment_responses = relStore.assessment_responses ++
        [⟨relStore.nextResponseId, 1, 1, sumValues adj, sev.severity_id, 9⟩] ∧
      relStoreAfter.response_details = relStore.response_details ++
        adj.map (fun r => ⟨relStore.nextResponseId, r.1, r.2.1, r.2.2⟩)) ∧
    adjustResponses relStore rsRel =
      some [(1,105,5),(2,104,4),(3,103,3),(4,102,4),(5,101,1),(6,106,3),(7,107,2)] ∧
    (adjustResponses relStore rsRel).map sumValues = some 22 :=
  ⟨c1_relationship_reverse_scoring relStore relStoreAfter 9 1 1 rsRel 22
     (by decide) (by decide),
   by decide, by decide⟩

/-! ### C4: atomicity of the save -/

/-- C4: the save is atomic: on failure the store is exactly as before (no
orphaned header or detail rows) and failure is reported; on success the
header row and all of its detail rows are appended as a single unit and no
other table changes. -/
theorem c4_atomic_save (st : Store) (now uid tid : Nat) (rs : List Answer)
    (t : Int) :
    ((save_assessment_response st now uid tid rs t).1 = false →
      (save_assessment_response st now uid tid rs t).2 = st) ∧
    (∀ st', save_assessment_response st now uid tid rs t = (true, st') →
      ∃ (stored : List Answer) (total : Int) (sevId : Nat),
        st'.assessment_responses = st.assessment_responses ++
          [⟨st.nextResponseId, uid, tid, total, sevId, now⟩] ∧
        st'.response_details = st.response_details ++
          stored.map (fun r => ⟨st.nextResponseId, r.1, r.2.1, r.2.2⟩) ∧
        st'.users = st.users ∧
        st'.assessment_types = st.assessment_types ∧
        st'.assessment_questions = st.assessment_questions ∧
        st'.response_options = st.response_options ∧
        st'.severity_levels = st.severity_levels) := by
  refine ⟨save_fst_false_eq st now uid tid rs t, ?_⟩
  intro st' h
  obtain ⟨code, _, hbranch⟩ := save_true_cases st st' now uid tid rs t h
  rcases hbranch with ⟨_, adj, sev, _, _, hst⟩ | ⟨_, sev, _, hst⟩ <;> subst hst
  · exact ⟨adj, sumValues adj, sev.severity_id, by simp [insertResponseRows],
      by simp [insertResponseRows], rfl, rfl, rfl, rfl, rfl⟩
  · exact ⟨rs, t, sev.severity_id, by simp [insertResponseRows],
      by simp [insertResponseRows], rfl, rfl, rfl, rfl, rfl⟩

/-- C4 witness: on the gap store the save fails and leaves the store
untouched. -/
theorem c4_atomic_save_witness :
    (save_assessment_response gapStore 0 1 1 [(1, 201, 10)] 10).2 = gapStore :=
  (c4_atomic_save gapStore 0 1 1 [(1, 201, 10)] 10).1 (by decide)

/-! ### C5: non-reverse-scored assessments store raw values -/

/-- C5: for every assessment whose type code is not `RELATIONSHIP`, saving
with the total the questionnaire computes (the sum of the raw values)
persists that sum as the total score, and every ResponseDetail row stores the
raw option value unmodified. -/
theorem c5_nonreverse_raw_values
    (st st' : Store) (now uid tid : Nat) (rs : List Answer) (c : String)
    (hcode : lookupTypeCode st tid = some c)
    (hne : c ≠ "RELATIONSHIP")
    (hsave : save_assessment_response st now uid tid rs (sumValues rs) = (true, st')) :
    ∃ sev, findSeverity st tid (sumValues rs) = some sev ∧
      st'.assessment_responses = st.assessment_responses ++
        [⟨st.nextResponseId, uid, tid, sumValues rs, sev.severity_id, now⟩] ∧
      st'.response_details = st.response_details ++
        rs.map (fun r => ⟨st.nextResponseId, r.1, r.2.1, r.2.2⟩) := by
  obtain ⟨code, hc, hbranch⟩ := save_true_cases st st' now uid tid rs (sumValues rs) hsave
  have hcc : code = c := by
    rw [hcode] at hc
    exact (Option.some.inj hc).symm
  rcases hbranch with ⟨hrel, _⟩ | ⟨_, sev, hsev, hst⟩
  · exact absurd (hcc ▸ hrel) hne
  · subst hst
    exact ⟨sev, hsev, by simp [insertResponseRows], by simp [insertResponseRows]⟩

/-- C5 witness: the non-reverse spec scenario: ten answers with values
`[3,4,2,5,1,3,4,2,5,1]` give total 30, classified `Severe` by the `[25,35]`
band, with all detail rows raw. -/
theorem c5_nonreverse_raw_values_witness :
    (∃ sev, findSeverity stressStore 1 (sumValues rsStress) = some sev ∧
      (save_assessment_response stressStore 3 1 1 rsStress (sumValues rsStress)).2.assessment_responses =
        stressStore.assessment_responses ++
          [⟨stressStore.nextResponseId, 1, 1, sumValues rsStress, sev.severity_id, 3⟩] ∧
      (save_assessment_response stressStore 3 1 1 rsStress (sumValues rsStress)).2.response_details =
        stressStore.response_details ++
          rsStress.map (fun r => ⟨stressStore.nextResponseId, r.1, r.2.1, r.2.2⟩)) ∧
    sumValues rsStress = 30 ∧
    (findSeverity stressStore 1 30).map (fun s => s.severity_label) = some "Severe" :=
  ⟨c5_nonreverse_raw_values stressStore
      (save_assessment_response stressStore 3 1 1 rsStress (sumValues rsStress)).2
      3 1 1 rsStress "STRESS" (by decide) (by decide) (by decide),
   by decide, by decide⟩

/-! ### C10: the caller-supplied total -/

/-- C10: for a `RELATIONSHIP` save the caller-supplied total score is
ignored: the result does not depend on it and the stored header total equals
the sum of the stored detail values; for every other type code the
caller-supplied total is persisted as-is, without validation against the
detail values. -/
theorem c10_caller_total
    (st : Store) (now uid tid : Nat) (rs : List Answer) (t t' : Int) :
    (lookupTypeCode st tid = some "RELATIONSHIP" →
      save_assessment_response st now uid tid rs t =
        save_assessment_response st now uid tid rs t' ∧
      (∀ st₂, save_assessment_response st now uid tid rs t = (true, st₂) →
        ∃ hdr ds, st₂.assessment_responses = st.assessment_responses ++ [hdr] ∧
          st₂.response_details = st.response_details ++ ds ∧
          hdr.total_score = (ds.map (fun d => d.response_value)).sum)) ∧
    (∀ c, lookupTypeCode st tid = some c → c ≠ "RELATIONSHIP" →
      ∀ st₂, save_assessment_response st now uid tid rs t = (true, st₂) →
        ∃ hdr, st₂.assessment_responses = st.assessment_responses ++ [hdr] ∧
          hdr.total_score = t) := by
  constructor
  · intro hcode
    constructor
    · unfold save_assessment_response
      rw [hcode]
      simp
    · intro st₂ h
      obtain ⟨code, hc, hbranch⟩ := save_true_cases st st₂ now uid tid rs t h
      have hcc : code = "RELATIONSHIP" := by
        rw [hcode] at hc
        exact (Option.some.inj hc).symm
      rcases hbranch with ⟨_, adj, sev, _, _, hst⟩ | ⟨hnrel, _⟩
      · subst hst
        refine ⟨⟨st.nextResponseId, uid, tid, sumValues adj, sev.severity_id, now⟩,
                adj.map (fun r => ⟨st.nextResponseId, r.1, r.2.1, r.2.2⟩),
                by simp [insertResponseRows], by simp [insertResponseRows], ?_⟩
        simp only [List.map_map, sumValues]
        rfl
      · exact absurd hcc hnrel
  · intro c hcode hne st₂ h
    obtain ⟨code, hc, hbranch⟩ := save_true_cases st st₂ now uid tid rs t h
    have hcc : code = c := by
      rw [hcode] at hc
      exact (Option.some.inj hc).symm
    rcases hbranch with ⟨hrel, _⟩ | ⟨_, sev, _, hst⟩
    · exact absurd (hcc ▸ hrel) hne
    · subst hst
      exact ⟨⟨st.nextResponseId, uid, tid, t, sev.severity_id, now⟩,
             by simp [insertResponseRows], rfl⟩

/-- C10 witness: a `RELATIONSHIP` save gives the same result for totals 0 and
999, and a `STRESS` save with the inconsistent total 999 (details summing to
30) persists 999 as-is. -/
theorem c10_caller_total_witness :
    (save_assessment_response relStore 9 1 1 rsRel 0 =
      save_assessment_response relStore 9 1 1 rsRel 999) ∧
    (∃ hdr, (save_assessment_response stressStore 0 1 1 rsStress 999).2.assessment_responses =
        stressStore.assessment_responses ++ [hdr] ∧ hdr.total_score = 999) ∧
    sumValues rsStress = 30 ∧
    (save_assessment_response stressStore 0 1 1 rsStress 999).1 = true :=
  ⟨((c10_caller_total relStore 9 1 1 rsRel 0 999).1 (by decide)).1,
   (c10_caller_total stressStore 0 1 1 rsStress 999 999).2 "STRESS"
     (by decide) (by decide)
     (save_assessment_response stressStore 0 1 1 rsStress 999).2 (by decide),
   by decide, by decide⟩

/-! ### C3: severity classification -/

/-- C3 counterexample: a configuration in which two severity bands both
contain the produced total 10; the claim requires the save to fail, but it
succeeds, silently storing the severity of the first matching band. -/
theorem c3_overlap_succeeds_counterexample :
    (overlapStore.severity_levels.filter
      (fun s => s.assessment_type_id == 1
        && decide (s.min_score ≤ (10 : Int)) && decide ((10 : Int) ≤ s.max_score))).length = 2 ∧
    (save_assessment_response overlapStore 0 1 1 [(1, 201, 10)] 10).1 = true ∧
    (save_assessment_response overlapStore 0 1 1 [(1, 201, 10)] 10).2.assessment_responses =
      [⟨1, 1, 1, 10, 1, 0⟩] := by decide

/-- C3 amended: a total score matching no severity band makes the save fail
with the store rolled back; when at least one band matches, the save stores
the severity of the first matching band in table order (overlapping bands are
resolved by first match, not rejected). -/
theorem c3_classification_amended
    (st : Store) (now uid tid : Nat) (rs : List Answer) (t : Int) :
    (∀ tot, computedTotal st tid rs t = some tot →
      findSeverity st tid tot = none →
      save_assessment_response st now uid tid rs t = (false, st)) ∧
    (∀ st', save_assessment_response st now uid tid rs t = (true, st') →
      ∃ tot sev, computedTotal st tid rs t = some tot ∧
        findSeverity st tid tot = some sev ∧
        st'.assessment_responses = st.assessment_responses ++
          [⟨st.nextResponseId, uid, tid, tot, sev.severity_id, now⟩]) := by
  constructor
  · intro tot htot hnone
    by_cases hb : (save_assessment_response st now uid tid rs t).1 = true
    · exfalso
      have h' : save_assessment_response st now uid tid rs t =
          (true, (save_assessment_response st now uid tid rs t).2) := by
        rw [← hb]
      obtain ⟨code, hc, hbranch⟩ := save_true_cases _ _ _ _ _ _ _ h'
      unfold computedTotal at htot
      rw [hc] at htot
      rcases hbranch with ⟨hrel, adj, sev, hadj, hsev, _⟩ | ⟨hnrel, sev, hsev, _⟩
      · simp only [Option.some_bind, if_pos hrel, hadj, Option.map_some',
          Option.some.injEq] at htot
        rw [← htot] at hnone
        rw [hnone] at hsev
        exact Option.noConfusion hsev
      · simp only [Option.some_bind, if_neg hnrel, Option.some.injEq] at htot
        rw [← htot] at hnone
        rw [hnone] at hsev
        exact Option.noConfusion hsev
    · have hb' : (save_assessment_response st now uid tid rs t).1 = false := by
        revert hb
        cases (save_assessment_response st now uid tid rs t).1 <;> simp
      have h2 := save_fst_false_eq st now uid tid rs t hb'
      rw [Prod.ext_iff]
      exact ⟨hb', h2⟩
  · intro st' h
    obtain ⟨code, hc, hbranch⟩ := save_true_cases st st' now uid tid rs t h
    unfold computedTotal
    rw [hc]
    rcases hbranch with ⟨hrel, adj, sev, hadj, hsev, hst⟩ | ⟨hnrel, sev, hsev, hst⟩
    · subst hst
      refine ⟨sumValues adj, sev, ?_, hsev, by simp [insertResponseRows]⟩
      simp only [Option.some_bind, if_pos hrel, hadj, Option.map_some']
    · subst hst
      refine ⟨t, sev, ?_, hsev, by simp [insertResponseRows]⟩
      simp only [Option.some_bind, if_neg hnrel]

/-- C3 amended witness: on the gap store (single band `[0,5]`, total 10) the
save fails and rolls back. -/
theorem c3_classification_amended_witness :
    save_assessment_response gapStore 4 1 1 [(1, 201, 10)] 10 = (false, gapStore) :=
  (c3_classification_amended gapStore 4 1 1 [(1, 201, 10)] 10).1 10
    (by decide) (by decide)

/-! ### C9: logout -/

/-- C9: from every session state, logout clears identity, role flags, the
admin-view flag, the active section and any selected response simultaneously,
leaving the empty session, and the next interaction routes to the
authentication screen. -/
theorem c9_logout_clears_session (s : Session) (st : Store) (sec : String) :
    logout s = emptySession ∧
    (logout s).current_user = none ∧
    (logout s).is_admin = none ∧
    (logout s).is_admin_view = none ∧
    (logout s).active_section = none ∧
    (logout s).selected_response = none ∧
    main_route st (logout s) sec = Screen.authScreen :=
  ⟨rfl, rfl, rfl, rfl, rfl, rfl, rfl⟩

/-! ### C8: the admin-view flag is inert for non-admin users -/

/-- For a user whose users row is not admin, the dashboard renders the same
fixed normal view whatever the admin-view flag holds. -/
theorem render_dashboard_nonadmin_const
    (st : Store) (sess : Session) (uid : Nat)
    (huser : sess.current_user = some uid)
    (hdb : (get_user_settings st uid).map Prod.fst ≠ some true) :
    render_dashboard st sess =
      (get_user_settings st uid).map (fun _ =>
        if (get_user_assessment_history st uid).isEmpty then ⟨none, [], none⟩
        else ⟨none, (get_user_assessment_history st uid).map (renderRow false),
              sess.selected_response.map (renderDetail false)⟩) := by
  unfold render_dashboard
  rw [huser]
  simp only [Option.some_bind]
  cases hset : get_user_settings st uid with
  | none => rfl
  | some settings =>
    have hadm : settings.1 = false := by
      rw [hset] at hdb
      simp only [Option.map_some', ne_eq, Option.some.injEq] at hdb
      cases h : settings.1
      · rfl
      · exact absurd h hdb
    simp only [Option.map_some', hadm, Bool.and_false,
      Bool.false_eq_true, if_false]

/-- C8: for a user whose `is_admin` flag is false, toggling the admin-view
flag changes no observable output: two runs differing only in the flag
produce the same screen, and each section renders the normal view (no radar,
completion-only rows, no score in the drill-down). -/
theorem c8_admin_view_noop (st : Store) (sess : Session) (uid : Nat)
    (b₁ b₂ : Option Bool) (chosen : String)
    (huser : sess.current_user = some uid)
    (hflag : sess.is_admin.getD false = false)
    (hdb : (get_user_settings st uid).map Prod.fst ≠ some true) :
    main_route st { sess with is_admin_view := b₁ } chosen =
      main_route st { sess with is_admin_view := b₂ } chosen ∧
    (∀ v, render_dashboard st { sess with is_admin_view := b₁ } = some v →
      v.radar = none ∧
      (∀ r ∈ v.rows, ∃ title date, r = RowView.normalRow title date) ∧
      (∀ d, v.detail = some d → d.scoreInfo = none)) := by
  have h₁ := render_dashboard_nonadmin_const st { sess with is_admin_view := b₁ }
    uid huser hdb
  have h₂ := render_dashboard_nonadmin_const st { sess with is_admin_view := b₂ }
    uid huser hdb
  constructor
  · unfold main_route
    rw [h₁, h₂]
  · intro v hv
    rw [h₁] at hv
    cases hset : get_user_settings st uid with
    | none => rw [hset] at hv; exact absurd hv (by simp)
    | some settings =>
      rw [hset, Option.map_some', Option.some.injEq] at hv
      subst hv
      split
      · exact ⟨rfl, by intro r hr; simp at hr, by intro d hd; simp at hd⟩
      · refine ⟨rfl, ?_, ?_⟩
        · intro r hr
          simp only [List.mem_map] at hr
          obtain ⟨e, _, he⟩ := hr
          exact ⟨e.assessment_title, e.created_at, he ▸ rfl⟩
        · intro d hd
          simp only [Option.map_eq_some'] at hd
          obtain ⟨e, _, he⟩ := hd
          rw [← he]
          rfl

/-- The session of the non-admin user 1, before any admin-view toggling. -/
def nonAdminSess : Session := ⟨some 1, some false, none, none, none⟩

/-- C8 witness: on the store holding the saved relationship response of the
non-admin user 1, runs with the admin-view flag true and false produce the
same screen. -/
theorem c8_admin_view_noop_witness :
    main_route relStoreAfter { nonAdminSess with is_admin_view := some true }
        "Dashboard" =
      main_route relStoreAfter { nonAdminSess with is_admin_view := some false }
        "Dashboard" :=
  (c8_admin_view_noop relStoreAfter nonAdminSess 1 (some true) (some false)
    "Dashboard" (by decide) (by decide) (by decide)).1

/-! ### C2: score visibility for non-admin users -/

/-- C2 counterexample: the history aggregator takes no role context, and for
the non-admin user 1 its emitted view model still carries the persisted score
22 and severity label Moderate; the fields are suppressed only at rendering
time. -/
theorem c2_viewmodel_scores_counterexample :
    get_user_settings relStoreAfter 1 = some (false, false) ∧
    ∃ e ∈ get_user_assessment_history relStoreAfter 1,
      e.total_score = 22 ∧ e.severity_label = "Moderate" := by decide

/-- C2 amended: for a non-admin role context (users row not admin, or admin
view inactive) the rendered dashboard suppresses score and severity — no
radar, completion-only history rows, no score in the drill-down — but the
suppression happens at rendering: the aggregator itself emits the score and
severity fields regardless of role. -/
theorem c2_score_suppression_amended
    (st : Store) (sess : Session) (uid : Nat) (v : DashboardView)
    (huser : sess.current_user = some uid)
    (hctx : (get_user_settings st uid).map Prod.fst = some false ∨
            sess.is_admin_view = some false)
    (hrender : render_dashboard st sess = some v) :
    v.radar = none ∧
    (∀ r ∈ v.rows, ∃ title date, r = RowView.normalRow title date) ∧
    (∀ d, v.detail = some d → d.scoreInfo = none) := by
  unfold render_dashboard at hrender
  rw [huser] at hrender
  simp only [Option.some_bind] at hrender
  cases hset : get_user_settings st uid with
  | none => rw [hset] at hrender; exact absurd hrender (by simp)
  | some settings =>
    rw [hset] at hrender
    simp only [Option.map_some', Option.some.injEq] at hrender
    have hss : (sess.is_admin_view.getD true && settings.1) = false := by
      rcases hctx with hctx | hctx
      · rw [hset] at hctx
        simp only [Option.map_some', Option.some.injEq] at hctx
        rw [hctx, Bool.and_false]
      · rw [hctx]
        rfl
    rw [hss] at hrender
    subst hrender
    split
    · exact ⟨rfl, by intro r hr; simp at hr, by intro d hd; simp at hd⟩
    · refine ⟨by simp, ?_, ?_⟩
      · intro r hr
        simp only [List.mem_map] at hr
        obtain ⟨e, _, he⟩ := hr
        exact ⟨e.assessment_title, e.created_at, he ▸ rfl⟩
      · intro d hd
        simp only [Option.map_eq_some'] at hd
        obtain ⟨e, _, he⟩ := hd
        rw [← he]
        rfl

/-- C2 amended witness: the dashboard rendered for the non-admin user 1 over
the saved relationship response shows no radar. -/
theorem c2_score_suppression_amended_witness :
    ((render_dashboard relStoreAfter nonAdminSess).getD ⟨none, [], none⟩).radar =
      none :=
  (c2_score_suppression_amended relStoreAfter nonAdminSess 1
    ((render_dashboard relStoreAfter nonAdminSess).getD ⟨none, [], none⟩)
    (by decide) (Or.inl (by decide)) (by decide)).1

/-! ### C7: the radar series -/

/-- The radar loop equals the spec series, relative to codes already in the
accumulator. -/
theorem radarLoop_eq_spec (h : List HistoryEntry) :
    ∀ acc : List (String × Int),
      radarLoop acc h =
        acc ++ (specRadarSeries h).filter
          (fun p => decide (p.1 ∉ acc.map Prod.fst)) := by
  induction h with
  | nil => intro acc; simp [radarLoop, specRadarSeries]
  | cons e rest ih =>
    intro acc
    by_cases hmem : e.assessment_type ∈ acc.map Prod.fst
    · simp only [radarLoop, if_pos hmem, ih]
      congr 1
      simp only [specRadarSeries, List.filter_cons]
      have hd : decide ((e.assessment_type, e.total_score).1 ∉ acc.map Prod.fst)
          = false := by simp [hmem]
      rw [hd]
      simp only [Bool.false_eq_true, if_false]
      rw [List.filter_filter]
      apply List.filter_congr
      intro p _
      by_cases hpc : p.1 = e.assessment_type <;> simp [hpc, hmem]
    · simp only [radarLoop, if_neg hmem, ih]
      simp only [specRadarSeries, List.filter_cons]
      have hd : decide ((e.assessment_type, e.total_score).1 ∉ acc.map Prod.fst)
          = true := by simp [hmem]
      rw [hd]
      simp only [if_pos rfl, List.append_assoc, List.singleton_append]
      congr 2
      rw [List.filter_filter]
      apply List.filter_congr
      intro p _
      by_cases hpc : p.1 = e.assessment_type <;>
        by_cases hpm : p.1 ∈ acc.map Prod.fst <;>
          simp [hpc, hpm, List.mem_append]

/-- The radar series is exactly the spec series. -/
theorem radarSeries_eq_spec (h : List HistoryEntry) :
    radarSeries h = specRadarSeries h := by
  rw [radarSeries, radarLoop_eq_spec]
  simp

/-- The spec series carries no duplicate category label. -/
theorem specRadarSeries_keys_nodup (h : List HistoryEntry) :
    ((specRadarSeries h).map Prod.fst).Nodup := by
  induction h with
  | nil => simp [specRadarSeries]
  | cons e rest ih =>
    simp only [specRadarSeries, List.map_cons]
    refine List.nodup_cons.mpr ⟨?_, ?_⟩
    · intro hc
      simp only [List.mem_map, List.mem_filter] at hc
      obtain ⟨p, ⟨_, hpne⟩, hpe⟩ := hc
      rw [hpe] at hpne
      simp at hpne
    · exact ih.sublist ((List.filter_sublist _).map Prod.fst)

/-- A category label appears in the spec series exactly when some history
entry has that assessment type. -/
theorem specRadarSeries_keys_mem (h : List HistoryEntry) (c : String) :
    c ∈ (specRadarSeries h).map Prod.fst ↔ ∃ e ∈ h, e.assessment_type = c := by
  induction h with
  | nil => simp [specRadarSeries]
  | cons e rest ih =>
    simp only [specRadarSeries, List.map_cons, List.mem_cons]
    constructor
    · rintro (rfl | hc)
      · exact ⟨e, Or.inl rfl, rfl⟩
      · simp only [List.mem_map, List.mem_filter] at hc
        obtain ⟨p, ⟨hp, _⟩, rfl⟩ := hc
        obtain ⟨e', he', heq⟩ := ih.mp (List.mem_map_of_mem _ hp)
        exact ⟨e', Or.inr he', heq⟩
    · rintro ⟨e', he', rfl⟩
      rcases he' with rfl | he'
      · exact Or.inl rfl
      · by_cases hc : e'.assessment_type = e.assessment_type
        · exact Or.inl hc
        · right
          obtain ⟨p, hp, hpe⟩ := List.mem_map.mp (ih.mpr ⟨e', he', rfl⟩)
          exact List.mem_map.mpr
            ⟨p, List.mem_filter.mpr ⟨hp, by simp [hpe, hc]⟩, hpe⟩

/-- Every pair of the spec series pairs its label with the score of the first
entry of that assessment type in the history list. -/
theorem specRadarSeries_pair_first (h : List HistoryEntry) :
    ∀ c s, (c, s) ∈ specRadarSeries h →
      ∃ e, h.find? (fun x => x.assessment_type == c) = some e ∧
        e.total_score = s ∧ e.assessment_type = c := by
  induction h with
  | nil => simp [specRadarSeries]
  | cons e rest ih =>
    intro c s hp
    simp only [specRadarSeries, List.mem_cons] at hp
    rcases hp with heq | hp
    · obtain ⟨hc, hs⟩ := Prod.mk.injEq .. ▸ heq
      subst hc
      subst hs
      exact ⟨e, List.find?_cons_of_pos _ (by simp), rfl, rfl⟩
    · simp only [List.mem_filter] at hp
      obtain ⟨hp, hne⟩ := hp
      obtain ⟨e', hfind, hts, hat⟩ := ih c s hp
      refine ⟨e', ?_, hts, hat⟩
      have hne' : ¬(e.assessment_type == c) = true := by
        simp only [bne_iff_ne, ne_eq] at hne
        simp only [beq_iff_eq]
        exact fun hh => hne hh.symm
      exact (@List.find?_cons_of_neg _ (fun x => x.assessment_type == c)
        e rest hne').trans hfind

/-- C7: the radar series contains exactly one pair per distinct assessment
type of the user history, pairing each type with the total score of its
first (most recent, the history being sorted most-recent-first) entry, in
first-seen order (it coincides with the series the spec describes); and the
dashboard emits it only when the admin view is active and the user is an
admin. -/
theorem c7_radar_series (st : Store) (sess : Session) (uid : Nat)
    (v : DashboardView)
    (huser : sess.current_user = some uid)
    (hrender : render_dashboard st sess = some v) :
    radarSeries (get_user_assessment_history st uid) =
      specRadarSeries (get_user_assessment_history st uid) ∧
    ((radarSeries (get_user_assessment_history st uid)).map Prod.fst).Nodup ∧
    (∀ c, c ∈ (radarSeries (get_user_assessment_history st uid)).map Prod.fst ↔
      ∃ e ∈ get_user_assessment_history st uid, e.assessment_type = c) ∧
    (∀ c s, (c, s) ∈ radarSeries (get_user_assessment_history st uid) →
      ∃ e, (get_user_assessment_history st uid).find?
          (fun x => x.assessment_type == c) = some e ∧
        e.total_score = s ∧ e.assessment_type = c) ∧
    (get_user_assessment_history st uid).Sorted histRel ∧
    (v.radar ≠ none →
      sess.is_admin_view.getD true = true ∧
      (get_user_settings st uid).map Prod.fst = some true ∧
      v.radar = some (radarSeries (get_user_assessment_history st uid))) := by
  refine ⟨radarSeries_eq_spec _,
    radarSeries_eq_spec _ ▸ specRadarSeries_keys_nodup _,
    fun c => radarSeries_eq_spec _ ▸ specRadarSeries_keys_mem _ c,
    fun c s hcs => specRadarSeries_pair_first _ c s (radarSeries_eq_spec _ ▸ hcs),
    List.sorted_insertionSort histRel _,
    ?_⟩
  intro hradar
  unfold render_dashboard at hrender
  rw [huser] at hrender
  simp only [Option.some_bind] at hrender
  cases hset : get_user_settings st uid with
  | none => rw [hset] at hrender; exact absurd hrender (by simp)
  | some settings =>
    rw [hset] at hrender
    simp only [Option.map_some', Option.some.injEq] at hrender
    subst hrender
    cases hemp : (get_user_assessment_history st uid).isEmpty with
    | true => simp [hemp] at hradar
    | false =>
      simp only [hemp, Bool.false_eq_true, if_false] at hradar ⊢
      by_cases hss : (sess.is_admin_view.getD true && settings.1) = true
      · have h12 := hss
        rw [Bool.and_eq_true] at h12
        refine ⟨h12.1, ?_, ?_⟩
        · simp [h12.2]
        · simp [hss]
      · have hss' : (sess.is_admin_view.getD true && settings.1) = false := by
          cases hx : (sess.is_admin_view.getD true && settings.1)
          · rfl
          · exact absurd hx hss
        rw [hss'] at hradar
        simp at hradar

/-- A store holding an admin user 2 with three responses over two assessment
types, the newest first by timestamp. -/
def adminStore : Store :=
  { users := [⟨2, true, false⟩]
    assessment_types :=
      [⟨1, "RELATIONSHIP", "Relationship Scale"⟩, ⟨2, "STRESS", "Stress Scale"⟩]
    assessment_questions := [⟨1,1,1,"Q1"⟩, ⟨11,2,1,"S1"⟩]
    response_options := [⟨101,1,"A1",1⟩, ⟨201,2,"B1",1⟩]
    severity_levels := [⟨1,1,0,100,"Moderate"⟩, ⟨2,2,0,100,"Severe"⟩]
    assessment_responses :=
      [⟨1, 2, 1, 12, 1, 30⟩, ⟨2, 2, 2, 28, 2, 20⟩, ⟨3, 2, 1, 15, 1, 10⟩]
    response_details := [⟨1,1,101,5⟩, ⟨2,11,201,3⟩, ⟨3,1,101,4⟩]
    nextResponseId := 4 }

/-- The admin session with the admin view active. -/
def adminSess : Session := ⟨some 2, some true, some true, none, none⟩

/-- C7 witness: for the admin user 2 the radar series coincides with the spec
series, is emitted on the dashboard, and pairs each of the two assessment
types with its most recent total score, in first-seen order. -/
theorem c7_radar_series_witness :
    radarSeries (get_user_assessment_history adminStore 2) =
      specRadarSeries (get_user_assessment_history adminStore 2) ∧
    ((render_dashboard adminStore adminSess).getD ⟨none, [], none⟩).radar =
      some (radarSeries (get_user_assessment_history adminStore 2)) ∧
    radarSeries (get_user_assessment_history adminStore 2) =
      [("RELATIONSHIP", 12), ("STRESS", 28)] :=
  ⟨(c7_radar_series adminStore adminSess 2
      ((render_dashboard adminStore adminSess).getD ⟨none, [], none⟩)
      (by decide) (by decide)).1,
   ((c7_radar_series adminStore adminSess 2
      ((render_dashboard adminStore adminSess).getD ⟨none, [], none⟩)
      (by decide) (by decide)).2.2.2.2.2 (by decide)).2.2,
   by decide⟩

/-! ### C6: round-trip from save to history -/

/-- With distinct severity ids, looking a member band up by id returns that
band. -/
theorem findSeverityById_self (st : Store) (sev : SeverityLevel)
    (hmem : sev ∈ st.severity_levels)
    (hnd : (st.severity_levels.map (fun s => s.severity_id)).Nodup) :
    findSeverityById st sev.severity_id = some sev := by
  unfold findSeverityById
  cases hf : st.severity_levels.find? (fun s => s.severity_id == sev.severity_id) with
  | none =>
    rw [List.find?_eq_none] at hf
    exact absurd (by simp) (hf sev hmem)
  | some x =>
    have hx := List.mem_of_find?_eq_some hf
    have hpx := List.find?_some hf
    have hxe : x = sev := List.inj_on_of_nodup_map hnd hx hmem
      (by simpa [beq_iff_eq] using hpx)
    rw [hxe]

/-- After inserting a response header and its detail rows, the history of the
user contains an entry for the new response id with the inserted total and
the severity label of the inserted band. -/
theorem history_after_insert
    (st : Store) (now uid tid : Nat) (stored : List Answer) (tot : Int)
    (sev : SeverityLevel)
    (hsevmem : sev ∈ st.severity_levels)
    (hsevnd : (st.severity_levels.map (fun s => s.severity_id)).Nodup)
    (hty : (findType st tid).isSome)
    (hfresh : ∀ d ∈ st.response_details, d.response_id ≠ st.nextResponseId)
    (hq : ∀ r ∈ stored, (findQuestion st r.1).isSome)
    (ho : ∀ r ∈ stored, (findOption st r.2.1).isSome)
    (hne : stored ≠ []) :
    ∃ e, e ∈ get_user_assessment_history
        (insertResponseRows st now uid tid stored tot sev.severity_id) uid ∧
      e.response_id = st.nextResponseId ∧
      e.total_score = tot ∧
      e.severity_label = sev.severity_label := by
  set st' := insertResponseRows st now uid tid stored tot sev.severity_id with hst'
  set rid := st.nextResponseId with hrid
  have hTy : st'.assessment_types = st.assessment_types := rfl
  have hSev : st'.severity_levels = st.severity_levels := rfl
  have hQ : st'.assessment_questions = st.assessment_questions := rfl
  have hO : st'.response_options = st.response_options := rfl
  -- the detail rows of the new response are exactly the inserted ones
  have hdetails : st'.response_details.filter (fun d => d.response_id == rid) =
      stored.map (fun r => ⟨rid, r.1, r.2.1, r.2.2⟩) := by
    have h1 : st'.response_details = st.response_details ++
        stored.map (fun r => ⟨rid, r.1, r.2.1, r.2.2⟩) := rfl
    rw [h1, List.filter_append]
    have h2 : st.response_details.filter (fun d => d.response_id == rid) = [] := by
      rw [List.filter_eq_nil]
      intro d hd
      simpa using hfresh d hd
    have h3 : (stored.map (fun r =>
        (⟨rid, r.1, r.2.1, r.2.2⟩ : ResponseDetailRow))).filter
          (fun d => d.response_id == rid) =
        stored.map (fun r => ⟨rid, r.1, r.2.1, r.2.2⟩) := by
      rw [List.filter_eq_self]
      intro d hd
      obtain ⟨r, _, rfl⟩ := List.mem_map.mp hd
      simp
    rw [h2, h3, List.nil_append]
  -- the join produces at least one triple for the new response
  obtain ⟨r, rest, rfl⟩ : ∃ r rest, stored = r :: rest := by
    cases stored with
    | nil => exact absurd rfl hne
    | cons r rest => exact ⟨r, rest, rfl⟩
  obtain ⟨qrow, hqrow⟩ := Option.isSome_iff_exists.mp (hq r (List.mem_cons_self _ _))
  obtain ⟨orow, horow⟩ := Option.isSome_iff_exists.mp (ho r (List.mem_cons_self _ _))
  have htriple : (qrow.question_text, orow.option_text, r.2.2) ∈
      detailTriples st' rid := by
    unfold detailTriples
    rw [hdetails]
    refine List.mem_filterMap.mpr ⟨⟨rid, r.1, r.2.1, r.2.2⟩, ?_, ?_⟩
    · exact List.mem_map.mpr ⟨r, List.mem_cons_self _ _, rfl⟩
    · have hq' : findQuestion st' r.1 = some qrow := hqrow
      have ho' : findOption st' r.2.1 = some orow := horow
      rw [hq', ho']
  have hds : detailTriples st' rid ≠ [] := List.ne_nil_of_mem htriple
  -- build the history entry for the new header row
  obtain ⟨ty, hty'⟩ := Option.isSome_iff_exists.mp hty
  have hmk : mkHistoryEntry st' ⟨rid, uid, tid, tot, sev.severity_id, now⟩ =
      some ⟨rid, ty.code, ty.title, tot, sev.severity_label, now,
            detailTriples st' rid⟩ := by
    unfold mkHistoryEntry
    have h1 : findType st' tid = some ty := hty'
    have h2 : findSeverityById st' sev.severity_id = some sev :=
      findSeverityById_self st sev hsevmem hsevnd
    rw [h1, h2]
    have h3 : (detailTriples st' rid).isEmpty = false := by
      cases hcase : detailTriples st' rid with
      | nil => exact absurd hcase hds
      | cons a l => rfl
    simp only [h3, Bool.false_eq_true, if_false]
  refine ⟨⟨rid, ty.code, ty.title, tot, sev.severity_label, now,
          detailTriples st' rid⟩, ?_, rfl, rfl, rfl⟩
  unfold get_user_assessment_history
  refine (List.perm_insertionSort histRel _).mem_iff.mpr ?_
  refine List.mem_filterMap.mpr ⟨⟨rid, uid, tid, tot, sev.severity_id, now⟩, ?_, hmk⟩
  refine List.mem_filter.mpr ⟨?_, by simp⟩
  have h4 : st'.assessment_responses = st.assessment_responses ++
      [⟨rid, uid, tid, tot, sev.severity_id, now⟩] := rfl
  rw [h4]
  exact List.mem_append_right _ (List.mem_singleton.mpr rfl)

/-- C6: round-trip: for every successfully saved assessment response (over
well-formed reference data: fresh response id, existing questions and
options, distinct severity ids), the history later reconstructed for the
user contains an entry for that response reporting exactly the total score
and the severity label computed and persisted at save time. -/
theorem c6_roundtrip_save_history
    (st st' : Store) (now uid tid : Nat) (rs : List Answer) (t : Int)
    (hsave : save_assessment_response st now uid tid rs t = (true, st'))
    (hfresh : ∀ d ∈ st.response_details, d.response_id ≠ st.nextResponseId)
    (hq : ∀ r ∈ rs, (findQuestion st r.1).isSome)
    (ho : ∀ r ∈ rs, (findOption st r.2.1).isSome)
    (hsevnd : (st.severity_levels.map (fun s => s.severity_id)).Nodup)
    (hne : rs ≠ []) :
    ∃ tot sev e,
      computedTotal st tid rs t = some tot ∧
      findSeverity st tid tot = some sev ∧
      e ∈ get_user_assessment_history st' uid ∧
      e.response_id = st.nextResponseId ∧
      e.total_score = tot ∧
      e.severity_label = sev.severity_label := by
  obtain ⟨code, hc, hbranch⟩ := save_true_cases st st' now uid tid rs t hsave
  have hty : (findType st tid).isSome := by
    have heq : lookupTypeCode st tid = (findType st tid).map (fun ty => ty.code) := rfl
    rw [heq] at hc
    cases hft : findType st tid with
    | none => rw [hft] at hc; simp at hc
    | some ty => rfl
  rcases hbranch with ⟨hrel, adj, sev, hadj, hsev, hst⟩ | ⟨hnrel, sev, hsev, hst⟩
  · have hf2 := adjust_forall₂ st rs adj hadj
    have hq' : ∀ a ∈ adj, (findQuestion st a.1).isSome := by
      intro a ha
      obtain ⟨r, hr, hra⟩ := forall₂_mem_right hf2 a ha
      rw [hra.1]
      exact hq r hr
    have ho' : ∀ a ∈ adj, (findOption st a.2.1).isSome := by
      intro a ha
      obtain ⟨r, hr, hra⟩ := forall₂_mem_right hf2 a ha
      rw [hra.2.1]
      exact ho r hr
    have hne' : adj ≠ [] := by
      intro h0
      apply hne
      have hlen := hf2.length_eq
      rw [h0] at hlen
      exact List.length_eq_zero.mp hlen
    have hsevmem := List.mem_of_find?_eq_some hsev
    obtain ⟨e, hmem, h1, h2, h3⟩ := history_after_insert st now uid tid adj
      (sumValues adj) sev hsevmem hsevnd hty hfresh hq' ho' hne'
    subst hst
    refine ⟨sumValues adj, sev, e, ?_, hsev, hmem, h1, h2, h3⟩
    unfold computedTotal
    rw [hc]
    simp [hrel, hadj]
  · have hsevmem := List.mem_of_find?_eq_some hsev
    obtain ⟨e, hmem, h1, h2, h3⟩ := history_after_insert st now uid tid rs t sev
      hsevmem hsevnd hty hfresh hq ho hne
    subst hst
    refine ⟨t, sev, e, ?_, hsev, hmem, h1, h2, h3⟩
    unfold computedTotal
    rw [hc]
    simp [hnrel]

/-- C6 witness: the saved relationship scenario reappears in the history of
user 1 with its persisted total and severity label. -/
theorem c6_roundtrip_save_history_witness :
    ∃ tot sev e,
      computedTotal relStore 1 rsRel 22 = some tot ∧
      findSeverity relStore 1 tot = some sev ∧
      e ∈ get_user_assessment_history relStoreAfter 1 ∧
      e.response_id = relStore.nextResponseId ∧
      e.total_score = tot ∧
      e.severity_label = sev.severity_label :=
  c6_roundtrip_save_history relStore relStoreAfter 9 1 1 rsRel 22 (by decide)
    (by decide) (by decide) (by decide) (by decide) (by decide)
